import Mathlib

/-!
Verification development for the rpi-display-editor LED-matrix compositor
(`src/Matrix.py`, `src/Draggable.py`).  The Python classes are shallowly
embedded as pure Lean functions over explicit state records; in-place
mutation becomes state transformation, raised exceptions become `Option` /
error values.  GUI-only effects of the source (Qt repaints, `print`
statements, `disp_bb` display bookkeeping) have no bearing on the pixel
data and are not modelled.
-/

namespace RpiDisplay

/-- A QColor value, modelled as an RGBA quadruple.  Equality is value-based
(matching Qt's `QColor` equality).  The Python code uses `None` as the
transparent sentinel, modelled throughout as `Option Color` with `none` the
sentinel. -/
structure Color where
  r : Nat
  g : Nat
  b : Nat
  a : Nat
deriving DecidableEq, Repr

/-- `QColor("black")`, the fill used by `MatrixWidget.__init__`. -/
def black : Color := ⟨0, 0, 0, 255⟩

/-- An opaque color grid: the `_colors` attribute (a list of rows of
`QColor`). -/
abbrev Grid := List (List Color)

/-- A layer grid whose cells may be the transparent sentinel `None`:
the arrays stored in `_layers[1:]`. -/
abbrev OGrid := List (List (Option Color))

/-- Read cell `(r, c)` of a grid; `none` when either index is out of
range (Python would raise `IndexError` there). -/
def cellVal (g : Grid) (r c : Nat) : Option Color :=
  g[r]?.bind fun row => row[c]?

/-- State of a `MatrixWidget`: the construction parameters and the
`_colors` grid.  Dimensions are `Int` because the Python constructor
accepts any integers and performs no validation. -/
structure MatrixState where
  rows : Int
  cols : Int
  pxSize : Int
  pitch : Int
  colors : Grid
deriving DecidableEq, Repr

/-- `MatrixWidget.__init__` (Matrix.py lines 18-25): stores the
parameters and builds `_colors` as `rows` rows of `cols` cells, every
cell `QColor("black")`.  There is no dimension check: `range(n)` is
empty for `n ≤ 0`, modelled by `Int.toNat` clamping to `0`. -/
def matrixInit (rows cols pxSize pitch : Int) : MatrixState :=
  { rows := rows
    cols := cols
    pxSize := pxSize
    pitch := pitch
    colors := List.replicate rows.toNat (List.replicate cols.toNat black) }

/-- `MatrixWidget.set_px` (Matrix.py lines 71-86): bounds-check
`0 <= row < rows and 0 <= col < cols`, raising `IndexError` (modelled as
`none`) on failure, otherwise assign `_colors[row][col] = color`.
The `QColor(color)` string coercion and the Qt repaint call are outside
the pixel model. -/
def setPx (s : MatrixState) (row col : Int) (color : Color) : Option MatrixState :=
  if 0 ≤ row ∧ row < s.rows ∧ 0 ≤ col ∧ col < s.cols then
    some { s with colors :=
      s.colors.set row.toNat ((s.colors.getD row.toNat []).set col.toNat color) }
  else
    none

/-- Well-formedness of a grid: exactly `rows` rows, each of `cols`
cells — the shape `matrixInit` establishes and every operation
preserves. -/
def gridWF (g : Grid) (rows cols : Nat) : Prop :=
  g.length = rows ∧ ∀ row ∈ g, row.length = cols

instance (g : Grid) (rows cols : Nat) : Decidable (gridWF g rows cols) := by
  unfold gridWF; infer_instance

/-- A bounding box over exact rationals, mirroring `QRect` fields
`(x, y, width, height)`. -/
structure RectQ where
  x : ℚ
  y : ℚ
  w : ℚ
  h : ℚ
deriving DecidableEq, Repr

/-- `MatrixEmulatorWidget._mat_to_disp` (Matrix.py lines 208-218) over
exact rationals: multiply each field of the bounding box by
`px_size + pitch`. -/
def matToDisp (pxSize pitch : ℚ) (bb : RectQ) : RectQ :=
  { x := bb.x * (pxSize + pitch)
    y := bb.y * (pxSize + pitch)
    w := bb.w * (pxSize + pitch)
    h := bb.h * (pxSize + pitch) }

/-- `MatrixEmulatorWidget._disp_pos_to_mat` (Matrix.py lines 220-229)
over exact rationals (the source's truncation to `QPoint` removed, as
the spec's property demands): divide each coordinate of the point by
`px_size + pitch`. -/
def dispPosToMat (pxSize pitch : ℚ) (pt : ℚ × ℚ) : ℚ × ℚ :=
  (pt.1 / (pxSize + pitch), pt.2 / (pxSize + pitch))

end RpiDisplay

namespace RpiDisplay

/-- A draggable widget as the emulator sees it: the position of its
matrix bounding box `mat_bb` (top-left corner; `moveTo` preserves size)
and the position-agnostic color array its `draw()` method returns.  For
an `ImgWidget`, `content` is the decoded image; for a `TextWidget` it is
the array produced by `TextWidget.draw`.  The bounding-box size equals
the `content` dimensions, as both widget constructors establish. -/
structure Widget where
  x : Nat
  y : Nat
  content : OGrid
deriving DecidableEq, Repr

/-- `mat_bb.height()`: number of rows of the widget's drawn array. -/
def Widget.heightW (w : Widget) : Nat := w.content.length

/-- `mat_bb.width()`: number of columns of the widget's drawn array. -/
def Widget.widthW (w : Widget) : Nat := (w.content.headD []).length

/-- `QRect.moveTo`: move the bounding box's top-left corner to `(x, y)`,
keeping its size. -/
def Widget.moveTo (w : Widget) (p : Nat × Nat) : Widget :=
  { w with x := p.1, y := p.2 }

/-- State of a `MatrixEmulatorWidget`.  The Python object keeps
`self.widgets = [None, w1, ..., wN]` and `self._layers = [self._colors,
L1, ..., LN]`; here `widgets`/`elemLayers` hold the portions after the
`None`/background head, and the background layer is the `colors` field
itself — `_layers[0]` *is* `self._colors` in the source (the same list
object, despite the comment calling it a clone). -/
structure EmuState where
  rows : Int
  cols : Int
  pxSize : Int
  pitch : Int
  colors : Grid
  widgets : List Widget
  elemLayers : List OGrid
deriving DecidableEq, Repr

/-- `MatrixEmulatorWidget.__init__` (Matrix.py lines 162-171): the
matrix state of `MatrixWidget.__init__` plus `widgets = [None]` and
`_layers = [self._colors]`.  The source constructor passes the
`MatrixWidget` defaults `rows=32, cols=64, px_size=12, pitch=3`;
dimensions are kept as parameters here. -/
def emuInit (rows cols : Int) : EmuState :=
  let m := matrixInit rows cols 12 3
  { rows := m.rows, cols := m.cols, pxSize := m.pxSize, pitch := m.pitch,
    colors := m.colors, widgets := [], elemLayers := [] }

/-- A fully opaque grid viewed as a layer (every cell non-sentinel). -/
def optGrid (g : Grid) : OGrid := g.map (fun row => row.map some)

/-- The Python `self._layers` list: the background (`self._colors`,
aliased) at index 0, then one layer per widget. -/
def pyLayers (s : EmuState) : List OGrid := optGrid s.colors :: s.elemLayers

/-- Cell `(r, c)` of a layer, as `self._layers[i][row][col]` reads it.
Out-of-range indices yield `none`; the source would raise `IndexError`
there, which cannot happen while every layer has the matrix shape. -/
def cellAt (L : OGrid) (r c : Nat) : Option Color :=
  ((L[r]?.getD []).getD c none)

/-- First non-`None` value of a list of scan results. -/
def firstSome : List (Option Color) → Option Color
  | [] => none
  | some c :: _ => some c
  | none :: rest => firstSome rest

/-- The per-cell scan of `update_colors` (Matrix.py lines 250-255):
starting from `layer_idx = 0`, repeatedly decrement and read
`self._layers[layer_idx][row][col]` until a non-`None` value is found or
`layer_idx` reaches `-len(self._layers)`; i.e. read the layers from the
highest index (`_layers[-1]`) down to the background (`_layers[0]`) and
keep the first non-`None` color. -/
def compositeCell (layers : List OGrid) (r c : Nat) : Option Color :=
  firstSome (layers.reverse.map fun L => cellAt L r c)

/-- `MatrixEmulatorWidget.update_colors` with no bounding rectangle
(Matrix.py lines 231-259, the only way the source calls it — the
region-limited call in `dragMoveEvent` is commented out): for every
`row in range(self.rows)`, `col in range(self.cols)`, store the scanned
color into `self._colors[row][col]`.  A scan yielding `None` raises
`ValueError` in the source; that cannot happen when the background has
the matrix shape, so the `getD black` default below is never reached on
well-formed states. -/
def updateColors (s : EmuState) : EmuState :=
  { s with colors :=
      (List.range s.rows.toNat).map fun r =>
        (List.range s.cols.toNat).map fun c =>
          (compositeCell (pyLayers s) r c).getD black }

/-- `MatrixEmulatorWidget._draw_array` (Matrix.py lines 186-206):
allocate `np.full((len(self._colors), len(self._colors[0])), None)` and
assign `widget.draw()` into the rows `mat_bb.top()..mat_bb.bottom()` and
columns `mat_bb.left()..mat_bb.right()` (`QRect`: `top = y`,
`bottom = y + height - 1`, `left = x`, `right = x + width - 1`).
Faithful for a bounding box lying inside the grid (outside it, numpy
slicing clips and the shape-mismatched assignment raises `ValueError`).
The `disp_bb` update and Qt repaint are display-only and not modelled. -/
def drawArray (s : EmuState) (w : Widget) : OGrid :=
  (List.range s.colors.length).map fun r =>
    (List.range (s.colors.headD []).length).map fun c =>
      if w.y ≤ r ∧ r < w.y + w.heightW ∧ w.x ≤ c ∧ c < w.x + w.widthW then
        cellAt w.content (r - w.y) (c - w.x)
      else none

/-- `MatrixEmulatorWidget.add_widget` (Matrix.py lines 173-184): append
the widget to `self.widgets`, append `self._draw_array(widget)` to
`self._layers`, then `self.update_colors()` (the `setParent` call is
Qt-only). -/
def addWidget (s : EmuState) (w : Widget) : EmuState :=
  updateColors { s with
    widgets := s.widgets ++ [w],
    elemLayers := s.elemLayers ++ [drawArray s w] }

/-- Python `list.index`: position of the first occurrence, `none` when
absent (where `list.index` raises `ValueError`). -/
def indexOfWidget : List Widget → Widget → Option Nat
  | [], _ => none
  | a :: t, w => if a = w then some 0 else (indexOfWidget t w).map (· + 1)

/-- The error taxonomy of the spec: an invalid element ordinal.  In the
source the corresponding event is the `ValueError` raised by
`self.widgets.index(widget)` when the widget is not on the surface. -/
inductive EmuErr
  | indexOutOfRange
deriving DecidableEq, Repr

/-- Body of `dragMoveEvent` after the index lookup succeeded (Matrix.py
lines 290-305): move the widget's `mat_bb` to the new matrix position,
replace `self._layers[w_idx]` with `self._draw_array(widget)`, then
`self.update_colors()` over the full grid.  (The display-coordinate
conversion of the drop point happens before this body; positions here
are already matrix coordinates.) -/
def dragMoveBody (s : EmuState) (idx : Nat) (p : Nat × Nat) : EmuState :=
  match s.widgets[idx]? with
  | none => s
  | some w =>
    let w₂ := w.moveTo p
    updateColors { s with
      widgets := s.widgets.set idx w₂,
      elemLayers := s.elemLayers.set idx (drawArray s w₂) }

/-- `MatrixEmulatorWidget.dragMoveEvent` (Matrix.py lines 282-305) as
the surface's move operation: look the widget up with
`self.widgets.index(widget)` — which raises before anything is mutated
when the widget is not on the surface — then run the move body.  The
result pairs the error (if any) with the state at the moment the
operation finished or raised. -/
def moveElement (s : EmuState) (w : Widget) (p : Nat × Nat) :
    Option EmuErr × EmuState :=
  match indexOfWidget s.widgets w with
  | none => (some EmuErr.indexOutOfRange, s)
  | some idx => (none, dragMoveBody s idx p)

/-- `MatrixEmulatorWidget.update_widget` (Matrix.py lines 261-267) at a
valid element ordinal: `self._layers[widget_idx] =
self.widgets[widget_idx].draw()`.  `e` is the element index
(`widget_idx - 1` in the Python lists, which carry the `None`/background
head).  The source raises `IndexError` for an out-of-range index,
leaving the lists unchanged, exactly as `List.set` and `getD` do. -/
def updateWidgetAt (s : EmuState) (e : Nat) : EmuState :=
  { s with elemLayers :=
      s.elemLayers.set e (s.widgets.getD e ⟨0, 0, []⟩).content }

/-- The spec's compositing contract (§4.3 `composite`): scan the
*non-background* layers from topmost (highest index) downward and take
the first non-transparent color.  Stated from the spec's words, to be
compared with the source-derived `compositeCell`. -/
def topNonTransparent (elemLayers : List OGrid) (r c : Nat) : Option Color :=
  firstSome (elemLayers.reverse.map fun L => cellAt L r c)

/-- The background color of a state at a cell (the value `_colors[r][c]`
held before an operation). -/
def bgAt (g : Grid) (r c : Nat) : Color := (g.getD r []).getD c black

/-- The LayerStack/Elements correspondence of spec §3: one layer per
element, same order.  With the `None`/background heads restored, the
Python lists `self.widgets` and `self._layers` have equal length and
index `i ≥ 1` of each refers to the same element. -/
def layersAligned (s : EmuState) : Prop :=
  s.widgets.length = s.elemLayers.length

instance (s : EmuState) : Decidable (layersAligned s) := by
  unfold layersAligned; infer_instance

/-- A red pixel color used by the concrete states below. -/
def red : Color := ⟨255, 0, 0, 255⟩

/-- A concrete 1×2 surface holding one 1×1 red element at the left cell:
its layer covers cell `(0,0)` and is transparent at `(0,1)`. -/
def sOne : EmuState :=
  ⟨1, 2, 12, 3, [[black, black]], [⟨0, 0, [[some red]]⟩], [[[some red, none]]]⟩

/-- A 1×2 surface built through the source operations: construct the
emulator and `add_widget` a 1×1 red image element at the left cell. -/
def c8State : EmuState := addWidget (emuInit 1 2) ⟨0, 0, [[some red]]⟩

/-- A Python runtime value as far as `TextWidget.draw`'s comparison is
concerned: the `int` literal `1`, or the list of `'0'`/`'1'` strings
that `bdfparser`'s `todata()` returns (cf. `draw_text`, Matrix.py line
116, which reads `matrix_data[row_n][col_n] == '1'`). -/
inductive PyVal
  | intV : Int → PyVal
  | strListV : List String → PyVal
deriving DecidableEq, Repr

/-- Python `==` on such values: values of different types compare
unequal (no exception, simply `False`). -/
def pyEq : PyVal → PyVal → Bool
  | PyVal.intV a, PyVal.intV b => a = b
  | PyVal.strListV a, PyVal.strListV b => a = b
  | _, _ => false

/-- `TextWidget.draw` (Draggable.py lines 91-101):
`np.where(self.bitmap == 1, self.color, None)` where `self.bitmap` is
`todata()`'s list of bit strings.  `self.bitmap == 1` is the Python
comparison of a list with the int `1`; `np.where` then broadcasts the
chosen scalar over the glyph shape (the broadcast to the bounding box
happens in `_draw_array`'s slice assignment).  Cell `(r, c)` of the
result is `color` if the comparison is true and the sentinel `None`
otherwise. -/
def textWidgetDraw (bitmap : List String) (color : Color) : OGrid :=
  bitmap.map fun row => row.toList.map fun _ =>
    if pyEq (PyVal.strListV bitmap) (PyVal.intV 1) then some color else none

/-- Modelled from the spec: the Text render contract (§4.2) — every
"on" bit (`'1'`) of the glyph bitmap maps to the element's color, every
"off" bit to the transparent sentinel.  This is also what the sibling
`MatrixWidget.draw_text` (Matrix.py line 116) implements with its
`== '1'` comparison. -/
def textRenderSpec (bitmap : List String) (color : Color) : OGrid :=
  bitmap.map fun row => row.toList.map fun ch =>
    if ch = '1' then some color else none

/-- Modelled from the spec: the image decoder/thumbnailer is an
external collaborator (spec §1 and §6 — PIL `Image.thumbnail`, not part
of src/), whose documented behavior the §6 contract defers to: make the
image no larger than the given box, preserving the aspect ratio, doing
nothing when it already fits.  Over exact rationals: no-op when
`sw ≤ tw ∧ sh ≤ th`, otherwise scale both dimensions by
`min (tw/sw) (th/sh)`. -/
def thumbnailDims (sw sh tw th : ℚ) : ℚ × ℚ :=
  if sw ≤ tw ∧ sh ≤ th then (sw, sh)
  else (sw * min (tw / sw) (th / sh), sh * min (tw / sw) (th / sh))

/-- The size dispatch of `ImgWidget.__init__` (Draggable.py lines
115-121): with both targets given call `thumbnail((w, h))`, with only
`w` call `thumbnail((w, w))`, with only `h` call `thumbnail((h, h))`,
with neither keep the source raster's native size.  Returns the output
raster's `(width, height)`. -/
def imgWidgetDims (sw sh : ℚ) (w h : Option ℚ) : ℚ × ℚ :=
  match w, h with
  | some tw, some th => thumbnailDims sw sh tw th
  | some tw, none => thumbnailDims sw sh tw tw
  | none, some th => thumbnailDims sw sh th th
  | none, none => (sw, sh)

end RpiDisplay

namespace RpiDisplay

/- ### Helper lemmas on the compositing scan -/

theorem firstSome_append_single (xs : List (Option Color)) (b : Color) :
    firstSome (xs ++ [some b]) = some ((firstSome xs).getD b) := by
  induction xs with
  | nil => rfl
  | cons o t ih =>
    cases o with
    | none => simpa [firstSome] using ih
    | some c => simp [firstSome]

theorem firstSome_append_left (xs ys : List (Option Color)) (c : Color)
    (h : firstSome xs = some c) : firstSome (xs ++ ys) = some c := by
  induction xs with
  | nil => simp [firstSome] at h
  | cons o t ih =>
    cases o with
    | none => simpa [firstSome] using ih (by simpa [firstSome] using h)
    | some d => simpa [firstSome] using h

/-- The background-as-a-layer reads the same cells as the grid itself. -/
theorem cellAt_optGrid (g : Grid) (r c : Nat) :
    cellAt (optGrid g) r c = cellVal g r c := by
  unfold cellAt optGrid cellVal
  cases hr : g[r]? with
  | none => simp [hr]
  | some rowL =>
    cases hc : rowL[c]? with
    | none => simp [hr, hc]
    | some v => simp [hr, hc]

/-- On a well-formed grid, every in-bounds cell read succeeds and yields
the `bgAt` value. -/
theorem cellVal_of_wf (g : Grid) (rows cols r c : Nat)
    (hwf : gridWF g rows cols) (hr : r < rows) (hc : c < cols) :
    cellVal g r c = some (bgAt g r c) := by
  obtain ⟨hlen, hrows⟩ := hwf
  have hr' : r < g.length := by omega
  obtain ⟨rowL, hrowL⟩ : ∃ rowL, g[r]? = some rowL :=
    ⟨_, List.getElem?_eq_getElem hr'⟩
  have hc' : c < rowL.length := by
    rw [hrows rowL (List.getElem?_mem hrowL)]; omega
  obtain ⟨v, hv⟩ : ∃ v, rowL[c]? = some v :=
    ⟨_, List.getElem?_eq_getElem hc'⟩
  simp [cellVal, bgAt, hrowL, hv]

/-- Reading any cell the `update_colors` double loop wrote. -/
theorem updateColors_cellVal (s : EmuState) (r c : Nat)
    (hr : r < s.rows.toNat) (hc : c < s.cols.toNat) :
    cellVal (updateColors s).colors r c =
      some ((compositeCell (pyLayers s) r c).getD black) := by
  simp [updateColors, cellVal, List.getElem?_range hr, List.getElem?_range hc]

/-- Splitting the source scan into the non-background part and the
background fallback. -/
theorem compositeCell_split (bg : OGrid) (rest : List OGrid) (r c : Nat)
    (b : Color) (hbg : cellAt bg r c = some b) :
    compositeCell (bg :: rest) r c =
      some ((topNonTransparent rest r c).getD b) := by
  unfold compositeCell topNonTransparent
  rw [List.reverse_cons, List.map_append]
  simpa [hbg] using
    firstSome_append_single (rest.reverse.map fun L => cellAt L r c) b

/-- The `update_colors` shape: the written grid is `rows × cols`. -/
theorem updateColors_wf (s : EmuState) :
    gridWF (updateColors s).colors s.rows.toNat s.cols.toNat := by
  constructor
  · simp [updateColors]
  · intro row hrow
    simp only [updateColors, List.mem_map] at hrow
    obtain ⟨r, _, rfl⟩ := hrow
    simp

end RpiDisplay

namespace RpiDisplay

/- ### Claim C6 -/

/-- C6 counterexample: the claim says construction with `rows ≤ 0` fails
with `InvalidDimension`; in the source `MatrixWidget.__init__` performs
no dimension validation at all, so construction at `rows = 0` completes
normally and yields a grid with zero rows. -/
theorem c6_counterexample_no_dimension_check :
    matrixInit 0 64 12 3 =
      { rows := 0, cols := 64, pxSize := 12, pitch := 3, colors := [] } := by
  decide

/-- C6 (amended): grid construction performs no dimension validation.
For any `rows`, `cols` it allocates `max rows 0 × max cols 0` cells (so
`rows × cols` when both are positive, and an empty grid when either is
non-positive), every cell set to the fill color black. -/
theorem c6_construction_allocates_fill (rows cols pxSize pitch : Int) :
    (matrixInit rows cols pxSize pitch).colors.length = rows.toNat ∧
    ∀ row ∈ (matrixInit rows cols pxSize pitch).colors,
      row.length = cols.toNat ∧ ∀ c ∈ row, c = black := by
  refine ⟨by simp [matrixInit], ?_⟩
  intro row hrow
  simp only [matrixInit] at hrow
  rcases List.eq_of_mem_replicate hrow with rfl
  exact ⟨by simp, fun c hc => List.eq_of_mem_replicate hc⟩

/- ### Claim C2 -/

/-- C2: for every well-formed grid and in-bounds `(row, col)`, `set_px`
succeeds, reading the written cell back gives the written color, and
every other cell is unchanged. -/
theorem c2_set_get_px (s : MatrixState) (row col : Int) (color : Color)
    (hwf : gridWF s.colors s.rows.toNat s.cols.toNat)
    (hr0 : 0 ≤ row) (hr : row < s.rows) (hc0 : 0 ≤ col) (hc : col < s.cols) :
    ∃ s₂, setPx s row col color = some s₂ ∧
      cellVal s₂.colors row.toNat col.toNat = some color ∧
      ∀ r c : Nat, (r ≠ row.toNat ∨ c ≠ col.toNat) →
        cellVal s₂.colors r c = cellVal s.colors r c := by
  obtain ⟨hlen, hrows⟩ := hwf
  have hrn : row.toNat < s.colors.length := by
    rw [hlen]; omega
  obtain ⟨rowL, hrowL⟩ : ∃ rowL, s.colors[row.toNat]? = some rowL :=
    ⟨_, List.getElem?_eq_getElem hrn⟩
  have hrowLen : rowL.length = s.cols.toNat :=
    hrows rowL (List.getElem?_mem hrowL)
  have hcn : col.toNat < rowL.length := by
    rw [hrowLen]; omega
  have hgd : s.colors.getD row.toNat [] = rowL := by
    simp [List.getD, hrowL]
  refine ⟨⟨s.rows, s.cols, s.pxSize, s.pitch, s.colors.set row.toNat ((s.colors.getD row.toNat []).set col.toNat color)⟩, ?_, ?_, ?_⟩
  · unfold setPx
    rw [if_pos ⟨hr0, hr, hc0, hc⟩]
  · simp only [cellVal, hgd]
    rw [List.getElem?_set_self (by simpa using hrn)]
    simp [List.getElem?_set_self (by simpa using hcn)]
  · intro r c hne
    simp only [cellVal, hgd]
    rcases eq_or_ne r row.toNat with rfl | hrne
    · rcases hne with hne | hne
      · exact absurd rfl hne
      · rw [List.getElem?_set_self (by simpa using hrn), hrowL]
        simp [List.getElem?_set_ne (Ne.symm hne)]
    · rw [List.getElem?_set_ne (Ne.symm hrne)]

/-- C2 witness: a concrete 2×2 matrix, writing `black`'s complement at
`(0, 1)`. -/
theorem c2_witness :
    ∃ s₂, setPx (matrixInit 2 2 12 3) 0 1 ⟨255, 0, 0, 255⟩ = some s₂ ∧
      cellVal s₂.colors (0 : Int).toNat (1 : Int).toNat = some ⟨255, 0, 0, 255⟩ ∧
      ∀ r c : Nat, (r ≠ (0 : Int).toNat ∨ c ≠ (1 : Int).toNat) →
        cellVal s₂.colors r c = cellVal (matrixInit 2 2 12 3).colors r c :=
  c2_set_get_px (matrixInit 2 2 12 3) 0 1 ⟨255, 0, 0, 255⟩
    (by decide) (by decide) (by decide) (by decide) (by decide)

/- ### Claim C3 -/

/-- C3: over exact rationals, `_mat_to_disp` followed by
`_disp_pos_to_mat` (applied to the transformed position and to the
transformed size) recovers the original bounding box, for every
`pixel_size > 0` and `pitch ≥ 0`. -/
theorem c3_mapper_roundtrip (pxSize pitch : ℚ) (bb : RectQ)
    (hpx : 0 < pxSize) (hpitch : 0 ≤ pitch) :
    dispPosToMat pxSize pitch ((matToDisp pxSize pitch bb).x, (matToDisp pxSize pitch bb).y)
        = (bb.x, bb.y) ∧
    dispPosToMat pxSize pitch ((matToDisp pxSize pitch bb).w, (matToDisp pxSize pitch bb).h)
        = (bb.w, bb.h) := by
  have hk : pxSize + pitch ≠ 0 := by positivity
  constructor <;>
    simp [dispPosToMat, matToDisp, mul_div_assoc, div_self hk]

/-- C3 witness: the source's default parameters `px_size = 12`,
`pitch = 3` and the box `(1, 2, 3, 4)`. -/
theorem c3_witness :
    dispPosToMat 12 3 ((matToDisp 12 3 ⟨1, 2, 3, 4⟩).x, (matToDisp 12 3 ⟨1, 2, 3, 4⟩).y)
        = ((1 : ℚ), (2 : ℚ)) ∧
    dispPosToMat 12 3 ((matToDisp 12 3 ⟨1, 2, 3, 4⟩).w, (matToDisp 12 3 ⟨1, 2, 3, 4⟩).h)
        = ((3 : ℚ), (4 : ℚ)) :=
  c3_mapper_roundtrip 12 3 ⟨1, 2, 3, 4⟩ (by norm_num) (by norm_num)

/- ### Claim C1 -/

/-- C1: for every state whose background grid has the matrix shape and
every in-bounds cell, the frame `update_colors` writes equals the color
of the topmost non-transparent non-background layer at that cell
(scanning from the highest index downward), or the background layer's
color when every non-background layer is transparent there. -/
theorem c1_composite_topmost (s : EmuState) (r c : Nat)
    (hwf : gridWF s.colors s.rows.toNat s.cols.toNat)
    (hr : r < s.rows.toNat) (hc : c < s.cols.toNat) :
    cellVal (updateColors s).colors r c =
      some ((topNonTransparent s.elemLayers r c).getD (bgAt s.colors r c)) := by
  rw [updateColors_cellVal s r c hr hc]
  have hbg : cellAt (optGrid s.colors) r c = some (bgAt s.colors r c) := by
    rw [cellAt_optGrid]
    exact cellVal_of_wf _ _ _ _ _ hwf hr hc
  rw [show pyLayers s = optGrid s.colors :: s.elemLayers from rfl,
    compositeCell_split _ _ _ _ _ hbg]
  simp

/-- C1 witness: on `sOne`, the cell covered by the element composites to
the element's color and the uncovered cell to the background color. -/
theorem c1_witness :
    cellVal (updateColors sOne).colors 0 1 =
      some ((topNonTransparent sOne.elemLayers 0 1).getD (bgAt sOne.colors 0 1)) :=
  c1_composite_topmost sOne 0 1 (by decide) (by decide) (by decide)

/- ### Claim C10 -/

/-- C10: in the source, `self._layers[0]` *is* `self._colors` (the
comment calls it a clone but no copy is made), so `update_colors`
writes the resolved frame into the background layer itself.  The first
conjunct records the aliasing — the head of the layer stack after a
composite is the composited color grid; the second its consequence —
where an element covered a cell, the background layer now holds the
element's color instead of the previous background fill. -/
theorem c10_background_aliased_to_frame (s : EmuState) (r c : Nat) (col : Color)
    (hr : r < s.rows.toNat) (hc : c < s.cols.toNat)
    (htop : topNonTransparent s.elemLayers r c = some col) :
    pyLayers (updateColors s) =
      optGrid (updateColors s).colors :: (updateColors s).elemLayers ∧
    cellAt (optGrid (updateColors s).colors) r c = some col := by
  refine ⟨rfl, ?_⟩
  rw [cellAt_optGrid, updateColors_cellVal s r c hr hc]
  have hcc : compositeCell (pyLayers s) r c = some col := by
    unfold compositeCell pyLayers
    rw [List.reverse_cons, List.map_append]
    unfold topNonTransparent at htop
    exact firstSome_append_left _ _ _ htop
  rw [hcc]
  rfl

/-- C10 witness: on `sOne`, after one composite the background layer
holds red at the covered cell (the original fill there was black). -/
theorem c10_witness :
    pyLayers (updateColors sOne) =
      optGrid (updateColors sOne).colors :: (updateColors sOne).elemLayers ∧
    cellAt (optGrid (updateColors sOne).colors) 0 0 = some red :=
  c10_background_aliased_to_frame sOne 0 0 red (by decide) (by decide) (by decide)

/- ### Claim C9 -/

/-- C9: every mutating operation of the emulator surface keeps the
widget list and the per-element layer list index-aligned (equal length,
entries appended/replaced at matching positions); with the
`None`/background heads the Python lists carry, layer index 0 stays the
background grid and indices `1..N` stay in bijection with the elements.
`add_widget` appends to both lists, `update_colors` touches neither,
`dragMoveEvent` and `update_widget` replace in place. -/
theorem c9_layers_elements_aligned (s : EmuState) (w : Widget)
    (p : Nat × Nat) (e : Nat) (h : layersAligned s) :
    layersAligned (addWidget s w) ∧
    layersAligned (updateColors s) ∧
    layersAligned (moveElement s w p).2 ∧
    layersAligned (updateWidgetAt s e) := by
  unfold layersAligned at *
  refine ⟨?_, ?_, ?_, ?_⟩
  · simp [addWidget, updateColors, h]
  · simpa [updateColors] using h
  · unfold moveElement
    cases hidx : indexOfWidget s.widgets w with
    | none => simpa using h
    | some idx =>
      unfold dragMoveBody
      cases hw : s.widgets[idx]? with
      | none => simpa [hw] using h
      | some w₀ => simp [hw, updateColors, h]
  · simp [updateWidgetAt, h]

/-- C9 witness: the aligned state `sOne` stays aligned under all four
operations. -/
theorem c9_witness :
    layersAligned (addWidget sOne ⟨0, 1, [[some red]]⟩) ∧
    layersAligned (updateColors sOne) ∧
    layersAligned (moveElement sOne ⟨0, 0, [[some red]]⟩ (1, 0)).2 ∧
    layersAligned (updateWidgetAt sOne 0) :=
  c9_layers_elements_aligned sOne ⟨0, 1, [[some red]]⟩ (1, 0) 0 (by decide)

/- ### Claim C7 -/

theorem indexOfWidget_eq_none (l : List Widget) (w : Widget) (h : w ∉ l) :
    indexOfWidget l w = none := by
  induction l with
  | nil => rfl
  | cons a t ih =>
    simp only [List.mem_cons, not_or] at h
    have hne : ¬a = w := fun heq => h.1 heq.symm
    simp [indexOfWidget, hne, ih h.2]

/-- C7: moving a widget that is not on the surface fails with the
spec's `IndexOutOfRange` (the `ValueError` that `self.widgets.index`
raises before anything is mutated), and both the widget list and the
layer stack are exactly as before the call. -/
theorem c7_move_invalid_index_atomic (s : EmuState) (w : Widget)
    (p : Nat × Nat) (h : w ∉ s.widgets) :
    moveElement s w p = (some EmuErr.indexOutOfRange, s) ∧
    (moveElement s w p).2.widgets = s.widgets ∧
    (moveElement s w p).2.elemLayers = s.elemLayers := by
  have hmv : moveElement s w p = (some EmuErr.indexOutOfRange, s) := by
    unfold moveElement
    rw [indexOfWidget_eq_none s.widgets w h]
  exact ⟨hmv, by rw [hmv], by rw [hmv]⟩

/-- C7 witness: a widget with a different bounding-box position is not
on `sOne`, so moving it fails and changes nothing. -/
theorem c7_witness :
    moveElement sOne ⟨5, 0, [[some red]]⟩ (0, 0) =
      (some EmuErr.indexOutOfRange, sOne) ∧
    (moveElement sOne ⟨5, 0, [[some red]]⟩ (0, 0)).2.widgets = sOne.widgets ∧
    (moveElement sOne ⟨5, 0, [[some red]]⟩ (0, 0)).2.elemLayers = sOne.elemLayers :=
  c7_move_invalid_index_atomic sOne ⟨5, 0, [[some red]]⟩ (0, 0) (by decide)

/- ### Claim C8 -/

/-- C8: evaluating the source's move logic at the failing input.  On
`c8State` (1×2 grid, background black, one 1×1 red element at the left
cell, frame `[[red, black]]`), moving the element to the right cell and
back to the left cell yields the frame `[[red, red]]`: because
`_layers[0]` is aliased to `_colors`, the composite performed while the
element sat on the right cell baked red into the background there, and
the final composite reads that stale background value.  The claim's
round-trip identity fails even though no other element changed. -/
theorem c8_roundtrip_move_leaves_ghost :
    c8State.colors = [[red, black]] ∧
    (moveElement (moveElement c8State ⟨0, 0, [[some red]]⟩ (1, 0)).2
        ⟨1, 0, [[some red]]⟩ (0, 0)).2.colors = [[red, red]] := by
  decide

/- ### Claim C5 -/

/-- C5: evaluating `TextWidget.draw` at a failing input.  For the glyph
bitmap `["1"]` (a single "on" bit) the source compares the bit-string
list with the integer `1`, which is false in Python, so the rendered
grid is entirely the transparent sentinel — while the render contract
(and the sibling `draw_text`, which compares against `'1'`) maps the
"on" bit to the element's color. -/
theorem c5_text_draw_renders_transparent :
    textWidgetDraw ["1"] red = [[none]] ∧
    textRenderSpec ["1"] red = [[some red]] := by
  decide

/- ### Claim C4 -/

/-- C4 counterexample: a 4×2 source raster with only `width = 2` given
does not produce 2×2 output; `thumbnail((2, 2))` preserves the aspect
ratio and yields 2×1. -/
theorem c4_counterexample_nonsquare_source :
    imgWidgetDims 4 2 (some 2) none = (2, 1) ∧
    imgWidgetDims 4 2 (some 2) none ≠ (2, 2) := by
  constructor
  · norm_num [imgWidgetDims, thumbnailDims, min_def]
  · norm_num [imgWidgetDims, thumbnailDims, min_def]

/-- C4 (amended): with only the target width `w` given, the element
passes `(w, w)` as the thumbnail box; the output preserves the source's
aspect ratio, is returned unchanged when the source already fits within
`w × w`, and otherwise fits within `w × w` touching it (at least one
output dimension equals `w`).  Output dimensions equal `w × w` only for
square sources that need shrinking. -/
theorem c4_width_only_aspect_fit (sw sh w : ℚ)
    (hsw : 0 < sw) (hsh : 0 < sh) :
    (imgWidgetDims sw sh (some w) none).1 * sh =
      (imgWidgetDims sw sh (some w) none).2 * sw ∧
    (sw ≤ w ∧ sh ≤ w → imgWidgetDims sw sh (some w) none = (sw, sh)) ∧
    (¬(sw ≤ w ∧ sh ≤ w) →
      (imgWidgetDims sw sh (some w) none).1 ≤ w ∧
      (imgWidgetDims sw sh (some w) none).2 ≤ w ∧
      ((imgWidgetDims sw sh (some w) none).1 = w ∨
        (imgWidgetDims sw sh (some w) none).2 = w)) := by
  simp only [imgWidgetDims, thumbnailDims]
  by_cases hfit : sw ≤ w ∧ sh ≤ w
  · refine ⟨?_, fun _ => ?_, fun hn => absurd hfit hn⟩
    · simp [hfit, mul_comm]
    · simp [hfit]
  · have hswne : sw ≠ 0 := ne_of_gt hsw
    have hshne : sh ≠ 0 := ne_of_gt hsh
    have hcap1 : sw * (w / sw) = w := by field_simp
    have hcap2 : sh * (w / sh) = w := by field_simp
    refine ⟨?_, fun hyes => absurd hyes hfit, fun _ => ⟨?_, ?_, ?_⟩⟩
    · simp only [if_neg hfit]
      ring
    · simp only [if_neg hfit]
      calc sw * min (w / sw) (w / sh) ≤ sw * (w / sw) :=
            mul_le_mul_of_nonneg_left (min_le_left _ _) hsw.le
        _ = w := hcap1
    · simp only [if_neg hfit]
      calc sh * min (w / sw) (w / sh) ≤ sh * (w / sh) :=
            mul_le_mul_of_nonneg_left (min_le_right _ _) hsh.le
        _ = w := hcap2
    · simp only [if_neg hfit]
      rcases min_choice (w / sw) (w / sh) with hmin | hmin
      · exact Or.inl (by rw [hmin, hcap1])
      · exact Or.inr (by rw [hmin, hcap2])

/-- C4 witness: the 4×2 source with `w = 2` needs shrinking, so the
output (2×1) preserves aspect, fits within 2×2 and touches it. -/
theorem c4_witness :
    (imgWidgetDims 4 2 (some 2) none).1 * 2 =
      (imgWidgetDims 4 2 (some 2) none).2 * 4 ∧
    ((4 : ℚ) ≤ 2 ∧ (2 : ℚ) ≤ 2 → imgWidgetDims 4 2 (some 2) none = (4, 2)) ∧
    (¬((4 : ℚ) ≤ 2 ∧ (2 : ℚ) ≤ 2) →
      (imgWidgetDims 4 2 (some 2) none).1 ≤ 2 ∧
      (imgWidgetDims 4 2 (some 2) none).2 ≤ 2 ∧
      ((imgWidgetDims 4 2 (some 2) none).1 = 2 ∨
        (imgWidgetDims 4 2 (some 2) none).2 = 2)) :=
  c4_width_only_aspect_fit 4 2 2 (by norm_num) (by norm_num)

end RpiDisplay
